import Mathlib

set_option maxRecDepth 8000
set_option maxHeartbeats 1000000

/-!
Shallow embedding of `androidy-log` (src/lib.rs): a bounded, allocation-free
buffering layer over the Android logging sink `__android_log_write`.

Modelling conventions:
* a byte is a `Nat`; a possibly-uninitialized byte cell (`MaybeUninit` storage)
  is an `Option Nat`, with `none` standing for an uninitialized cell;
* the writer's fixed-size storage (`tag : MaybeUninit<[u8; 24]>`,
  `buffer : MaybeUninit<[u8; 4001]>`) is modelled as lists of cells of the
  corresponding length, together with the explicit `len` field of the source;
* the external sink is opaque: each call to `__android_log_write` is recorded
  as a `SinkCall` value (priority, tag pointer contents, message buffer
  contents, and the resident length at call time, i.e. the index at which the
  null terminator was just written).  The sink's return status is ignored by
  the source and hence not modelled.
-/

namespace AndroidyLog

/-- Priority of the log message (`LogPriority`, `#[repr(i32)]`). -/
inductive LogPriority where
  | UNKNOWN
  | DEFAULT
  | VERBOSE
  | DEBUG
  | INFO
  | WARN
  | ERROR
  | FATAL
  | SILENT
deriving DecidableEq, Repr

/-- Numeric discriminant of `LogPriority` (values 0..8 of the Rust enum). -/
def LogPriority.code : LogPriority → Int
  | .UNKNOWN => 0
  | .DEFAULT => 1
  | .VERBOSE => 2
  | .DEBUG => 3
  | .INFO => 4
  | .WARN => 5
  | .ERROR => 6
  | .FATAL => 7
  | .SILENT => 8

/-- `const TAG_MAX_LEN: usize = 23`. -/
def TAG_MAX_LEN : Nat := 23

/-- `const BUFFER_CAPACITY: usize = 4000`. -/
def BUFFER_CAPACITY : Nat := 4000

/-- `const DEFAULT_TAG: &str = "Rust"` as its UTF-8 bytes. -/
def DEFAULT_TAG : List Nat := [82, 117, 115, 116]

/-- Models `ptr::copy_nonoverlapping(src.as_ptr(), dst.add(off), n)`: the `n`
bytes `src[0..n)` overwrite the cells `dst[off..off+n)`; all other cells of
`dst` are unchanged. -/
def copyNonoverlapping (dst : List (Option Nat)) (off : Nat) (src : List Nat)
    (n : Nat) : List (Option Nat) :=
  dst.take off ++ (src.take n).map some ++ dst.drop (off + n)

/-- The `Writer` struct: tag storage of `TAG_MAX_LEN + 1` cells, priority,
message buffer of `BUFFER_CAPACITY + 1` cells, and the resident length. -/
structure Writer where
  tag : List (Option Nat)
  prio : LogPriority
  buffer : List (Option Nat)
  len : Nat
deriving DecidableEq, Repr

/-- One invocation of the sink `__android_log_write(prio, tag, text)`.
`text` is the full contents of the message buffer at call time; `len` is the
writer's resident length at call time, i.e. the index at which `inner_flush`
has just written the null terminator (`text.getD len none = some 0`). -/
structure SinkCall where
  prio : LogPriority
  tag : List (Option Nat)
  text : List (Option Nat)
  len : Nat
deriving DecidableEq, Repr

/-- `Writer::from_raw_parts(tag, prio)`: stores the given tag buffer verbatim,
an uninitialized message buffer and `len: 0`. -/
def Writer.from_raw_parts (tag : List (Option Nat)) (prio : LogPriority) :
    Writer :=
  { tag := tag, prio := prio,
    buffer := List.replicate (BUFFER_CAPACITY + 1) none, len := 0 }

/-- `Writer::new_default(prio)`: a zeroed 24-byte tag array whose first four
cells are set to the bytes of `DEFAULT_TAG`. -/
def Writer.new_default (prio : LogPriority) : Writer :=
  Writer.from_raw_parts
    (((((List.replicate (TAG_MAX_LEN + 1) (some 0)).set 0
        (some (DEFAULT_TAG.getD 0 0))).set 1
        (some (DEFAULT_TAG.getD 1 0))).set 2
        (some (DEFAULT_TAG.getD 2 0))).set 3
        (some (DEFAULT_TAG.getD 3 0)))
    prio

/-- `Writer::new(tag, prio)`: into an uninitialized 24-cell tag buffer, copy
`min(tag.len(), TAG_MAX_LEN)` bytes of `tag`, then write `0` at offset
`TAG_MAX_LEN` (the source writes the terminator at the fixed offset 23, not
after the copied bytes). -/
def Writer.new (tag : List Nat) (prio : LogPriority) : Writer :=
  Writer.from_raw_parts
    ((copyNonoverlapping (List.replicate (TAG_MAX_LEN + 1) none) 0 tag
        (min tag.length TAG_MAX_LEN)).set TAG_MAX_LEN (some 0))
    prio

/-- `Writer::buffer(&self)`: read-only view of the cells `buffer[0..len)`. -/
def Writer.buffer_view (w : Writer) : List (Option Nat) :=
  w.buffer.take w.len

/-- The resident bytes `buffer[0..len)` as plain bytes.  Whenever the writer
is reachable from a constructor these cells are all initialized, so the `getD`
default is never the value actually read. -/
def Writer.resident (w : Writer) : List Nat :=
  (w.buffer.take w.len).map (fun c => c.getD 0)

/-- `Writer::inner_flush`: write the null terminator at `buffer[len]`, call
the sink with `(prio, tag, buffer)`, and reset `len` to `0`.  The emitted
`SinkCall` records the buffer contents handed to the sink. -/
def Writer.inner_flush (w : Writer) : Writer × List SinkCall :=
  let buf := w.buffer.set w.len (some 0)
  ({ w with buffer := buf, len := 0 },
   [{ prio := w.prio, tag := w.tag, text := buf, len := w.len }])

/-- `Writer::flush`: flush the buffer via `inner_flush` if any data is
resident, otherwise do nothing. -/
def Writer.flush (w : Writer) : Writer × List SinkCall :=
  if 0 < w.len then w.inner_flush else (w, [])

/-- `Writer::copy_data(text)`: copy
`write_len = min(BUFFER_CAPACITY.saturating_sub(len), text.len())` bytes into
`buffer[len..len+write_len)`, advance `len`, and return the unconsumed
remainder `text[write_len..]`.  (`Nat` subtraction is saturating.) -/
def Writer.copy_data (w : Writer) (text : List Nat) : Writer × List Nat :=
  let write_len := min (BUFFER_CAPACITY - w.len) text.length
  ({ w with buffer := copyNonoverlapping w.buffer w.len text write_len,
            len := w.len + write_len },
   text.drop write_len)

/-- `Writer::write_data(data)`: loop { copy what fits; if nothing remains,
stop; otherwise flush and continue with the remainder }.  Returns the final
writer state together with the sink calls emitted, in order. -/
def Writer.write_data (w : Writer) (data : List Nat) : Writer × List SinkCall :=
  let wr := w.copy_data data
  if wr.2.isEmpty then (wr.1, [])
  else
    let wf := wr.1.flush
    let rest := Writer.write_data wf.1 wr.2
    (rest.1, wf.2 ++ rest.2)
termination_by (data.length, w.len)
decreasing_by
  rename_i h
  have h2 : (w.copy_data data).2 ≠ [] := by simpa using h
  have hflen : ∀ v : Writer, (Writer.flush v).1.len = 0 := by
    intro v
    unfold Writer.flush Writer.inner_flush
    split
    · rfl
    · show v.len = 0
      omega
  have hdrop : (w.copy_data data).2
      = data.drop (min (BUFFER_CAPACITY - w.len) data.length) := rfl
  have hlen2 : (w.copy_data data).2.length
      = data.length - min (BUFFER_CAPACITY - w.len) data.length := by
    rw [hdrop, List.length_drop]
  have hpos : 0 < data.length - min (BUFFER_CAPACITY - w.len) data.length := by
    have := List.length_pos.mpr h2
    omega
  show Prod.Lex (· < ·) (· < ·)
      ((w.copy_data data).2.length, (((w.copy_data data).1.flush).1).len)
      (data.length, w.len)
  rw [hlen2, hflen]
  rcases Nat.eq_zero_or_pos (min (BUFFER_CAPACITY - w.len) data.length)
    with h0 | h0
  · have hwpos : 0 < w.len := by
      unfold BUFFER_CAPACITY at h0 hpos
      omega
    rw [h0, Nat.sub_zero]
    exact Prod.Lex.right _ hwpos
  · exact Prod.Lex.left _ _ (by omega)

/-- `impl Drop for Writer`: dropping the writer calls `flush` once. -/
def Writer.drop_writer (w : Writer) : Writer × List SinkCall :=
  w.flush

/-- An externally observable operation on a writer. -/
inductive Op where
  | write (data : List Nat)
  | flush
deriving DecidableEq, Repr

/-- Perform one operation. -/
def Writer.step (w : Writer) (op : Op) : Writer × List SinkCall :=
  match op with
  | .write data => w.write_data data
  | .flush => w.flush

/-- Perform a sequence of operations, collecting all sink calls in order. -/
def Writer.run (w : Writer) (ops : List Op) : Writer × List SinkCall :=
  match ops with
  | [] => (w, [])
  | op :: rest =>
    let s := w.step op
    let r := Writer.run s.1 rest
    (r.1, s.2 ++ r.2)

/-- Perform a sequence of `write_data` calls, collecting all sink calls. -/
def Writer.runWrites (w : Writer) (ws : List (List Nat)) :
    Writer × List SinkCall :=
  match ws with
  | [] => (w, [])
  | d :: rest =>
    let s := w.write_data d
    let r := Writer.runWrites s.1 rest
    (r.1, s.2 ++ r.2)

/-- The message bytes a sink call delivers: the buffer cells before the null
terminator that `inner_flush` wrote at index `len`. -/
def SinkCall.message (c : SinkCall) : List Nat :=
  (c.text.take c.len).map (fun x => x.getD 0)

/-- All bytes delivered across a list of sink calls, in order. -/
def messagesBytes (calls : List SinkCall) : List Nat :=
  (calls.map SinkCall.message).flatten

/-- Structural well-formedness of a writer: the message buffer has its full
`BUFFER_CAPACITY + 1` cells and the resident length is within capacity. -/
def Writer.Wf (w : Writer) : Prop :=
  w.buffer.length = BUFFER_CAPACITY + 1 ∧ w.len ≤ BUFFER_CAPACITY

instance (w : Writer) : Decidable w.Wf := by
  unfold Writer.Wf
  infer_instance

/-- The UTF-8 bytes of the tag `"Test"` used by the repository's tests. -/
def TEST_TAG : List Nat := [84, 101, 115, 116]

theorem length_copyNonoverlapping (dst : List (Option Nat)) (off : Nat)
    (src : List Nat) (n : Nat) (hn : n ≤ src.length)
    (hoff : off + n ≤ dst.length) :
    (copyNonoverlapping dst off src n).length = dst.length := by
  unfold copyNonoverlapping
  simp only [List.length_append, List.length_take, List.length_map,
    List.length_drop]
  omega

theorem take_copyNonoverlapping (dst : List (Option Nat)) (off : Nat)
    (src : List Nat) (n : Nat) (hn : n ≤ src.length)
    (hoff : off ≤ dst.length) :
    (copyNonoverlapping dst off src n).take (off + n)
      = dst.take off ++ (src.take n).map some := by
  unfold copyNonoverlapping
  refine List.take_left' ?_
  simp only [List.length_append, List.length_take, List.length_map]
  omega

theorem take_set_self {α : Type} (l : List α) (n : Nat) (a : α) :
    (l.set n a).take n = l.take n := by
  rw [List.set_take]
  refine List.set_eq_of_length_le ?_
  simp only [List.length_take]
  omega

theorem getD_set_self {α : Type} (l : List α) (n : Nat) (a d : α)
    (h : n < l.length) : (l.set n a).getD n d = a := by
  rw [List.getD_eq_getElem?_getD, List.getElem?_set_self h]
  rfl

theorem resident_eq_nil (w : Writer) (h : w.len = 0) : w.resident = [] := by
  unfold Writer.resident
  rw [h]
  rfl

theorem copy_data_len (w : Writer) (text : List Nat) :
    (w.copy_data text).1.len
      = w.len + min (BUFFER_CAPACITY - w.len) text.length := rfl

theorem copy_data_rest (w : Writer) (text : List Nat) :
    (w.copy_data text).2
      = text.drop (min (BUFFER_CAPACITY - w.len) text.length) := rfl

theorem copy_data_tag (w : Writer) (text : List Nat) :
    (w.copy_data text).1.tag = w.tag := rfl

theorem copy_data_prio (w : Writer) (text : List Nat) :
    (w.copy_data text).1.prio = w.prio := rfl

theorem wf_copy_data (w : Writer) (text : List Nat) (hw : w.Wf) :
    (w.copy_data text).1.Wf := by
  obtain ⟨hb, hl⟩ := hw
  constructor
  · show (copyNonoverlapping w.buffer w.len text
      (min (BUFFER_CAPACITY - w.len) text.length)).length
        = BUFFER_CAPACITY + 1
    rw [length_copyNonoverlapping _ _ _ _ (Nat.min_le_right _ _) (by omega)]
    exact hb
  · show w.len + min (BUFFER_CAPACITY - w.len) text.length ≤ BUFFER_CAPACITY
    omega

theorem resident_copy_data (w : Writer) (text : List Nat) (hw : w.Wf) :
    (w.copy_data text).1.resident
      = w.resident
        ++ text.take (min (BUFFER_CAPACITY - w.len) text.length) := by
  obtain ⟨hb, hl⟩ := hw
  show ((copyNonoverlapping w.buffer w.len text
      (min (BUFFER_CAPACITY - w.len) text.length)).take
        (w.len + min (BUFFER_CAPACITY - w.len) text.length)).map
          (fun c => c.getD 0)
    = (w.buffer.take w.len).map (fun c => c.getD 0)
        ++ text.take (min (BUFFER_CAPACITY - w.len) text.length)
  rw [take_copyNonoverlapping _ _ _ _ (Nat.min_le_right _ _) (by omega)]
  rw [List.map_append, List.map_map]
  simp [Function.comp_def]

theorem flush_len (w : Writer) : (w.flush).1.len = 0 := by
  unfold Writer.flush Writer.inner_flush
  split
  · rfl
  · show w.len = 0
    omega

theorem flush_tag (w : Writer) : (w.flush).1.tag = w.tag := by
  unfold Writer.flush Writer.inner_flush
  split <;> rfl

theorem flush_prio (w : Writer) : (w.flush).1.prio = w.prio := by
  unfold Writer.flush Writer.inner_flush
  split <;> rfl

theorem wf_flush (w : Writer) (hw : w.Wf) : (w.flush).1.Wf := by
  obtain ⟨hb, hl⟩ := hw
  unfold Writer.flush Writer.inner_flush
  split
  · exact ⟨by simpa using hb, Nat.zero_le _⟩
  · exact ⟨hb, hl⟩

theorem flush_of_pos (w : Writer) (h : 0 < w.len) :
    w.flush
      = ({ w with buffer := w.buffer.set w.len (some 0), len := 0 },
         [{ prio := w.prio, tag := w.tag,
            text := w.buffer.set w.len (some 0), len := w.len }]) := by
  unfold Writer.flush Writer.inner_flush
  rw [if_pos h]

theorem messagesBytes_append (a b : List SinkCall) :
    messagesBytes (a ++ b) = messagesBytes a ++ messagesBytes b := by
  unfold messagesBytes
  simp

theorem messages_flush (w : Writer) :
    messagesBytes (w.flush).2 = w.resident := by
  rcases Nat.eq_zero_or_pos w.len with h0 | h0
  · have : w.flush = (w, []) := by
      unfold Writer.flush
      rw [if_neg (by omega)]
    rw [this, resident_eq_nil w h0]
    rfl
  · rw [flush_of_pos w h0]
    show SinkCall.message
        { prio := w.prio, tag := w.tag,
          text := w.buffer.set w.len (some 0), len := w.len } ++ []
      = w.resident
    unfold SinkCall.message Writer.resident
    rw [take_set_self, List.append_nil]

theorem write_data_of_empty (w : Writer) (data : List Nat)
    (h : (w.copy_data data).2 = []) :
    w.write_data data = ((w.copy_data data).1, []) := by
  rw [Writer.write_data.eq_def]
  simp [h]

theorem write_data_of_nonempty (w : Writer) (data : List Nat)
    (h : (w.copy_data data).2 ≠ []) :
    w.write_data data
      = (((((w.copy_data data).1.flush).1).write_data (w.copy_data data).2).1,
         ((w.copy_data data).1.flush).2
           ++ (((((w.copy_data data).1.flush).1).write_data
                 (w.copy_data data).2).2)) := by
  rw [Writer.write_data.eq_def]
  simp [h]

theorem write_data_spec (w : Writer) (data : List Nat) : w.Wf →
    ((w.write_data data).1.Wf
      ∧ messagesBytes (w.write_data data).2 ++ (w.write_data data).1.resident
          = w.resident ++ data
      ∧ (w.write_data data).1.tag = w.tag
      ∧ (w.write_data data).1.prio = w.prio) := by
  induction w, data using Writer.write_data.induct with
  | case1 w data wr hempty =>
    intro hw
    have h : (w.copy_data data).2 = [] := by
      have h2 := hempty
      simp only [List.isEmpty_iff] at h2
      exact h2
    rw [write_data_of_empty w data h]
    refine ⟨wf_copy_data w data hw, ?_, rfl, rfl⟩
    have hd : data.drop (min (BUFFER_CAPACITY - w.len) data.length) = [] := by
      rw [← copy_data_rest]
      exact h
    have hdl : data.length ≤ min (BUFFER_CAPACITY - w.len) data.length := by
      have := List.drop_eq_nil_iff.mp hd
      omega
    have htake : data.take (min (BUFFER_CAPACITY - w.len) data.length)
        = data := List.take_of_length_le hdl
    show [] ++ (w.copy_data data).1.resident = w.resident ++ data
    rw [List.nil_append, resident_copy_data w data hw, htake]
  | case2 w data wr hempty wf ih =>
    intro hw
    have h : (w.copy_data data).2 ≠ [] := by
      have h2 := hempty
      simp only [List.isEmpty_iff] at h2
      exact h2
    have hw1 : (w.copy_data data).1.Wf := wf_copy_data w data hw
    have hwf : ((w.copy_data data).1.flush).1.Wf :=
      wf_flush (w.copy_data data).1 hw1
    obtain ⟨ihWf, ihEq, ihTag, ihPrio⟩ := ih hwf
    rw [write_data_of_nonempty w data h]
    refine ⟨ihWf, ?_, ?_, ?_⟩
    · show messagesBytes (((w.copy_data data).1.flush).2
          ++ (((((w.copy_data data).1.flush).1).write_data
                (w.copy_data data).2).2))
        ++ (((((w.copy_data data).1.flush).1).write_data
              (w.copy_data data).2).1).resident
        = w.resident ++ data
      rw [messagesBytes_append, List.append_assoc, ihEq]
      rw [messages_flush (w.copy_data data).1]
      rw [resident_eq_nil ((w.copy_data data).1.flush).1
        (flush_len (w.copy_data data).1), List.nil_append]
      rw [resident_copy_data w data hw, copy_data_rest, List.append_assoc,
        List.take_append_drop]
    · show (((((w.copy_data data).1.flush).1).write_data
          (w.copy_data data).2).1).tag = w.tag
      rw [ihTag, flush_tag, copy_data_tag]
    · show (((((w.copy_data data).1.flush).1).write_data
          (w.copy_data data).2).1).prio = w.prio
      rw [ihPrio, flush_prio, copy_data_prio]

theorem write_data_len_le (w : Writer) (data : List Nat) :
    w.len ≤ BUFFER_CAPACITY → (w.write_data data).1.len ≤ BUFFER_CAPACITY := by
  induction w, data using Writer.write_data.induct with
  | case1 w data wr hempty =>
    intro hl
    have h : (w.copy_data data).2 = [] := by
      have h2 := hempty
      simp only [List.isEmpty_iff] at h2
      exact h2
    rw [write_data_of_empty w data h, copy_data_len]
    omega
  | case2 w data wr hempty wf ih =>
    intro hl
    have h : (w.copy_data data).2 ≠ [] := by
      have h2 := hempty
      simp only [List.isEmpty_iff] at h2
      exact h2
    rw [write_data_of_nonempty w data h]
    exact ih (by rw [flush_len]; exact Nat.zero_le _)

theorem runWrites_spec (ws : List (List Nat)) (w : Writer) (hw : w.Wf) :
    (w.runWrites ws).1.Wf
      ∧ messagesBytes (w.runWrites ws).2 ++ (w.runWrites ws).1.resident
          = w.resident ++ ws.flatten := by
  induction ws generalizing w with
  | nil =>
    refine ⟨hw, ?_⟩
    show messagesBytes [] ++ w.resident = w.resident ++ []
    rw [List.append_nil]
    rfl
  | cons d rest ih =>
    obtain ⟨h1Wf, h1Eq, _, _⟩ := write_data_spec w d hw
    obtain ⟨h2Wf, h2Eq⟩ := ih (w.write_data d).1 h1Wf
    refine ⟨h2Wf, ?_⟩
    show messagesBytes ((w.write_data d).2
        ++ (((w.write_data d).1).runWrites rest).2)
      ++ ((((w.write_data d).1).runWrites rest).1).resident
      = w.resident ++ (d ++ rest.flatten)
    rw [messagesBytes_append, List.append_assoc, h2Eq, ← List.append_assoc,
      h1Eq, List.append_assoc]

theorem message_length (c : SinkCall) :
    c.message.length = min c.len c.text.length := by
  unfold SinkCall.message
  rw [List.length_map, List.length_take]

theorem write_data_chunks : ∀ (n : Nat) (w : Writer) (data : List Nat),
    w.Wf → w.len = 0 → 0 < n → data.length = n →
    ((w.write_data data).2.length = (n - 1) / BUFFER_CAPACITY
      ∧ (∀ c ∈ (w.write_data data).2,
          c.message.length = BUFFER_CAPACITY)
      ∧ (w.write_data data).1.len
          = n - BUFFER_CAPACITY * ((n - 1) / BUFFER_CAPACITY)
      ∧ (w.write_data data).1.Wf) := by
  intro n
  induction n using Nat.strong_induction_on with
  | _ n ih =>
    intro w data hw h0 hn hlen
    by_cases hc : n ≤ BUFFER_CAPACITY
    · have hm : min (BUFFER_CAPACITY - w.len) data.length = data.length := by
        rw [h0]
        unfold BUFFER_CAPACITY at *
        omega
      have hempty : (w.copy_data data).2 = [] := by
        rw [copy_data_rest, hm]
        simp
      rw [write_data_of_empty w data hempty]
      refine ⟨?_, ?_, ?_, wf_copy_data w data hw⟩
      · show (0 : Nat) = (n - 1) / BUFFER_CAPACITY
        unfold BUFFER_CAPACITY at *
        omega
      · intro c hmem
        exact absurd hmem (List.not_mem_nil c)
      · rw [copy_data_len, hm, h0, Nat.zero_add, hlen]
        unfold BUFFER_CAPACITY at *
        omega
    · push_neg at hc
      have hm : min (BUFFER_CAPACITY - w.len) data.length = BUFFER_CAPACITY := by
        rw [h0]
        unfold BUFFER_CAPACITY at *
        omega
      have hrest : (w.copy_data data).2 = data.drop BUFFER_CAPACITY := by
        rw [copy_data_rest, hm]
      have hrlen : (w.copy_data data).2.length = n - BUFFER_CAPACITY := by
        rw [hrest, List.length_drop, hlen]
      have hne : (w.copy_data data).2 ≠ [] := by
        intro heq
        rw [heq] at hrlen
        unfold BUFFER_CAPACITY at *
        simp at hrlen
        omega
      have h1len : (w.copy_data data).1.len = BUFFER_CAPACITY := by
        rw [copy_data_len, hm, h0, Nat.zero_add]
      have h1wf : (w.copy_data data).1.Wf := wf_copy_data w data hw
      have hpos1 : 0 < (w.copy_data data).1.len := by
        rw [h1len]
        unfold BUFFER_CAPACITY
        omega
      have hfl := flush_of_pos (w.copy_data data).1 hpos1
      have hcalls : ((w.copy_data data).1.flush).2
          = [{ prio := (w.copy_data data).1.prio,
               tag := (w.copy_data data).1.tag,
               text := (w.copy_data data).1.buffer.set
                 (w.copy_data data).1.len (some 0),
               len := (w.copy_data data).1.len }] := by
        rw [hfl]
      have hWfF : ((w.copy_data data).1.flush).1.Wf :=
        wf_flush (w.copy_data data).1 h1wf
      obtain ⟨c1, c2, c3, c4⟩ := ih (n - BUFFER_CAPACITY)
        (by unfold BUFFER_CAPACITY at *; omega)
        ((w.copy_data data).1.flush).1 (w.copy_data data).2 hWfF
        (flush_len (w.copy_data data).1)
        (by unfold BUFFER_CAPACITY at *; omega) hrlen
      rw [write_data_of_nonempty w data hne]
      refine ⟨?_, ?_, ?_, c4⟩
      · show (((w.copy_data data).1.flush).2
            ++ ((((w.copy_data data).1.flush).1).write_data
                  (w.copy_data data).2).2).length
          = (n - 1) / BUFFER_CAPACITY
        rw [List.length_append, hcalls, c1]
        show 1 + (n - BUFFER_CAPACITY - 1) / BUFFER_CAPACITY
          = (n - 1) / BUFFER_CAPACITY
        unfold BUFFER_CAPACITY at *
        omega
      · intro c hmem
        rcases List.mem_append.mp hmem with hin | hin
        · rw [hcalls] at hin
          rw [List.mem_singleton.mp hin, message_length]
          show min (w.copy_data data).1.len
              ((w.copy_data data).1.buffer.set
                (w.copy_data data).1.len (some 0)).length
            = BUFFER_CAPACITY
          rw [List.length_set, h1len, h1wf.1]
          unfold BUFFER_CAPACITY
          omega
        · exact c2 c hin
      · show ((((w.copy_data data).1.flush).1).write_data
            (w.copy_data data).2).1.len
          = n - BUFFER_CAPACITY * ((n - 1) / BUFFER_CAPACITY)
        rw [c3]
        unfold BUFFER_CAPACITY at *
        omega

theorem wf_new_default (prio : LogPriority) : (Writer.new_default prio).Wf := by
  constructor
  · show (List.replicate (BUFFER_CAPACITY + 1) (none : Option Nat)).length
      = BUFFER_CAPACITY + 1
    simp
  · show (0 : Nat) ≤ BUFFER_CAPACITY
    exact Nat.zero_le _

/-- C1: refuted as stated; evaluation of `Writer::new` at the repository's
own test tag `"Test"` (4 bytes ≤ 23).  The four tag bytes are copied
unmodified, but the null terminator is NOT written at offset
`min(len(tag_text), 23) = 4` — that cell is left uninitialized — and is
instead written at the fixed offset `TAG_MAX_LEN = 23`.  This contradicts the
claim (and the repository's own test, which asserts the stored tag equals
`b"Test\x00"`), so the terminator-placement half of the claim describes the
intent and the code deviates from it. -/
theorem tag_terminator_placement_bug :
    (Writer.new TEST_TAG .WARN).tag.take TEST_TAG.length = TEST_TAG.map some
    ∧ (Writer.new TEST_TAG .WARN).tag.getD
        (min TEST_TAG.length TAG_MAX_LEN) none = none
    ∧ (Writer.new TEST_TAG .WARN).tag.getD TAG_MAX_LEN none = some 0
    ∧ (Writer.new TEST_TAG .WARN).tag.length = TAG_MAX_LEN + 1 := by
  decide

/-- C2: delivery completeness.  Starting from any well-formed writer with an
empty buffer, the bytes delivered to the sink by a sequence of `write_data`
calls plus one final forced `flush` are exactly the concatenation of the
inputs: same total length, original order, no gaps, no duplication. -/
theorem delivery_completeness (w : Writer) (ws : List (List Nat))
    (hw : w.Wf) (h0 : w.len = 0) :
    messagesBytes ((w.runWrites ws).2 ++ ((w.runWrites ws).1.flush).2)
      = ws.flatten := by
  obtain ⟨hWf, hEq⟩ := runWrites_spec ws w hw
  rw [messagesBytes_append, messages_flush (w.runWrites ws).1, hEq,
    resident_eq_nil w h0, List.nil_append]

theorem delivery_completeness_witness :
    (Writer.new_default .INFO).Wf
    ∧ (Writer.new_default .INFO).len = 0
    ∧ messagesBytes (((Writer.new_default .INFO).runWrites [[1, 2], [3]]).2
        ++ ((((Writer.new_default .INFO).runWrites [[1, 2], [3]]).1).flush).2)
      = [[1, 2], [3]].flatten :=
  ⟨wf_new_default .INFO, rfl,
   delivery_completeness (Writer.new_default .INFO) [[1, 2], [3]]
     (wf_new_default .INFO) rfl⟩

/-- C3: capacity invariant.  For every sequence of `write_data` and `flush`
calls on a writer whose resident length is within capacity, the resident
length satisfies `0 ≤ len ≤ BUFFER_CAPACITY` after the sequence; since the
sequence is arbitrary, this holds immediately before and after every call. -/
theorem capacity_invariant (w : Writer) (ops : List Op)
    (hw : w.len ≤ BUFFER_CAPACITY) :
    0 ≤ (w.run ops).1.len ∧ (w.run ops).1.len ≤ BUFFER_CAPACITY := by
  induction ops generalizing w with
  | nil => exact ⟨Nat.zero_le _, hw⟩
  | cons op rest ih =>
    show 0 ≤ (((w.step op).1).run rest).1.len
      ∧ (((w.step op).1).run rest).1.len ≤ BUFFER_CAPACITY
    apply ih
    cases op with
    | write data => exact write_data_len_le w data hw
    | flush =>
      show (w.flush).1.len ≤ BUFFER_CAPACITY
      rw [flush_len]
      exact Nat.zero_le _

theorem capacity_invariant_witness :
    (Writer.new_default .INFO).len ≤ BUFFER_CAPACITY
    ∧ (0 ≤ ((Writer.new_default .INFO).run [Op.write [1, 2], Op.flush]).1.len
        ∧ ((Writer.new_default .INFO).run [Op.write [1, 2], Op.flush]).1.len
            ≤ BUFFER_CAPACITY) :=
  ⟨by decide,
   capacity_invariant (Writer.new_default .INFO) [Op.write [1, 2], Op.flush]
     (by decide)⟩

/-- C4: overflow chunking.  Writing a single byte slice of length
`BUFFER_CAPACITY * k + r` with `0 < r < BUFFER_CAPACITY` on a well-formed
writer with empty buffer produces exactly `k` sink invocations of exactly
`BUFFER_CAPACITY` message bytes each, and leaves exactly `r` bytes
resident. -/
theorem overflow_chunking (w : Writer) (data : List Nat) (k r : Nat)
    (hw : w.Wf) (h0 : w.len = 0)
    (hlen : data.length = BUFFER_CAPACITY * k + r)
    (hr0 : 0 < r) (hr1 : r < BUFFER_CAPACITY) :
    (w.write_data data).2.length = k
    ∧ (∀ c ∈ (w.write_data data).2, c.message.length = BUFFER_CAPACITY)
    ∧ (w.write_data data).1.len = r := by
  obtain ⟨c1, c2, c3, _⟩ := write_data_chunks data.length w data hw h0
    (by unfold BUFFER_CAPACITY at *; omega) rfl
  refine ⟨?_, c2, ?_⟩
  · rw [c1, hlen]
    unfold BUFFER_CAPACITY at *
    omega
  · rw [c3, hlen]
    unfold BUFFER_CAPACITY at *
    omega

theorem overflow_chunking_witness :
    (Writer.new_default .INFO).Wf
    ∧ [(65 : Nat)].length = BUFFER_CAPACITY * 0 + 1
    ∧ ((Writer.new_default .INFO).write_data [65]).2.length = 0
    ∧ ((Writer.new_default .INFO).write_data [65]).1.len = 1 :=
  ⟨wf_new_default .INFO, by decide,
   (overflow_chunking (Writer.new_default .INFO) [65] 0 1
      (wf_new_default .INFO) rfl (by decide) (by decide) (by decide)).1,
   (overflow_chunking (Writer.new_default .INFO) [65] 0 1
      (wf_new_default .INFO) rfl (by decide) (by decide) (by decide)).2.2⟩

/-- C5: flush behaviour on a non-empty buffer.  When `len > 0`, `flush`
writes the null terminator at `buffer[len]` (an in-bounds index, as
`len < buffer.length`), makes exactly one sink invocation carrying the
writer's priority, tag, and terminated buffer, and resets `len` to `0`
unconditionally (no sink return status exists to consult). -/
theorem flush_nonempty_behaviour (w : Writer) (hw : w.Wf) (h : 0 < w.len) :
    w.flush
      = ({ w with buffer := w.buffer.set w.len (some 0), len := 0 },
         [{ prio := w.prio, tag := w.tag,
            text := w.buffer.set w.len (some 0), len := w.len }])
    ∧ w.len < w.buffer.length
    ∧ (w.buffer.set w.len (some 0)).getD w.len none = some 0 := by
  obtain ⟨hb, hl⟩ := hw
  refine ⟨flush_of_pos w h, by omega, ?_⟩
  exact getD_set_self _ _ _ _ (by omega)

theorem flush_nonempty_behaviour_witness :
    ((Writer.new_default .WARN).copy_data [65]).1.Wf
    ∧ 0 < ((Writer.new_default .WARN).copy_data [65]).1.len
    ∧ ((Writer.new_default .WARN).copy_data [65]).1.len
        < ((Writer.new_default .WARN).copy_data [65]).1.buffer.length :=
  ⟨wf_copy_data (Writer.new_default .WARN) [65] (wf_new_default .WARN),
   by rw [copy_data_len]; decide,
   (flush_nonempty_behaviour ((Writer.new_default .WARN).copy_data [65]).1
      (wf_copy_data (Writer.new_default .WARN) [65] (wf_new_default .WARN))
      (by rw [copy_data_len]; decide)).2.1⟩

/-- C6: flush on destruction.  Dropping a writer runs `flush` once; whatever
bytes are resident (one sink call if `len > 0`, none otherwise) are delivered
to the sink, and no buffered-but-unflushed content is dropped. -/
theorem flush_on_destruction (w : Writer) :
    w.drop_writer = w.flush
    ∧ messagesBytes (w.drop_writer).2 = w.resident
    ∧ (w.drop_writer).2.length = (if 0 < w.len then 1 else 0)
    ∧ (w.drop_writer).1.len = 0 := by
  refine ⟨rfl, messages_flush w, ?_, flush_len w⟩
  rcases Nat.eq_zero_or_pos w.len with h0 | h0
  · rw [if_neg (by omega)]
    show (w.flush).2.length = 0
    unfold Writer.flush
    rw [if_neg (by omega)]
    rfl
  · rw [if_pos h0]
    show (w.flush).2.length = 1
    rw [flush_of_pos w h0]
    rfl

/-- C7: flush on an empty buffer is a no-op: no sink invocation is made and
the writer state is unchanged. -/
theorem flush_empty_noop (w : Writer) (h : w.len = 0) :
    w.flush = (w, []) := by
  unfold Writer.flush
  rw [if_neg (by omega)]

theorem flush_empty_noop_witness :
    (Writer.new_default .INFO).len = 0
    ∧ (Writer.new_default .INFO).flush = (Writer.new_default .INFO, []) :=
  ⟨rfl, flush_empty_noop (Writer.new_default .INFO) rfl⟩

/-- C8: refuted as stated; evaluation of both constructors at the default
tag.  `new_default` and `new DEFAULT_TAG` agree on the first four tag bytes,
the priority, the buffer and the resident length — and reading the stored tag
of a default-constructed writer yields the four default-tag bytes exactly —
but the stored tag arrays are NOT identical: `new_default` zero-fills, so its
cell 4 is a terminator byte `0`, while `new` leaves cells 4..22 uninitialized
(its terminator sits at the fixed offset 23).  The observable null-terminated
tags therefore differ, for the same underlying slip as C1. -/
theorem constructor_equivalence_bug :
    (Writer.new_default .INFO).tag.take DEFAULT_TAG.length
        = DEFAULT_TAG.map some
    ∧ (Writer.new DEFAULT_TAG .INFO).tag.take DEFAULT_TAG.length
        = DEFAULT_TAG.map some
    ∧ (Writer.new_default .INFO).prio = (Writer.new DEFAULT_TAG .INFO).prio
    ∧ (Writer.new_default .INFO).len = (Writer.new DEFAULT_TAG .INFO).len
    ∧ (Writer.new_default .INFO).buffer
        = (Writer.new DEFAULT_TAG .INFO).buffer
    ∧ (Writer.new_default .INFO).tag.getD DEFAULT_TAG.length none = some 0
    ∧ (Writer.new DEFAULT_TAG .INFO).tag.getD DEFAULT_TAG.length none = none
    ∧ (Writer.new_default .INFO).tag ≠ (Writer.new DEFAULT_TAG .INFO).tag := by
  exact ⟨by decide, by decide, rfl, rfl, rfl, by decide, by decide, by decide⟩

/-- C9: exact-multiple chunking.  Writing a single byte slice of length
exactly `BUFFER_CAPACITY * k` (`k ≥ 1`) on a well-formed writer with empty
buffer produces exactly `k - 1` sink invocations (each of exactly
`BUFFER_CAPACITY` message bytes) and leaves the full `BUFFER_CAPACITY` bytes
resident: the final full buffer is not flushed inside `write_data`. -/
theorem exact_multiple_chunking (w : Writer) (data : List Nat) (k : Nat)
    (hw : w.Wf) (h0 : w.len = 0) (hk : 1 ≤ k)
    (hlen : data.length = BUFFER_CAPACITY * k) :
    (w.write_data data).2.length = k - 1
    ∧ (∀ c ∈ (w.write_data data).2, c.message.length = BUFFER_CAPACITY)
    ∧ (w.write_data data).1.len = BUFFER_CAPACITY := by
  obtain ⟨c1, c2, c3, _⟩ := write_data_chunks data.length w data hw h0
    (by unfold BUFFER_CAPACITY at *; omega) rfl
  refine ⟨?_, c2, ?_⟩
  · rw [c1, hlen]
    unfold BUFFER_CAPACITY at *
    omega
  · rw [c3, hlen]
    unfold BUFFER_CAPACITY at *
    omega

theorem exact_multiple_chunking_witness :
    (Writer.new_default .INFO).Wf
    ∧ (List.replicate BUFFER_CAPACITY (65 : Nat)).length
        = BUFFER_CAPACITY * 1
    ∧ ((Writer.new_default .INFO).write_data
        (List.replicate BUFFER_CAPACITY 65)).2.length = 0
    ∧ ((Writer.new_default .INFO).write_data
        (List.replicate BUFFER_CAPACITY 65)).1.len = BUFFER_CAPACITY :=
  ⟨wf_new_default .INFO, by simp,
   (exact_multiple_chunking (Writer.new_default .INFO)
      (List.replicate BUFFER_CAPACITY 65) 1 (wf_new_default .INFO) rfl
      (by decide) (by simp)).1,
   (exact_multiple_chunking (Writer.new_default .INFO)
      (List.replicate BUFFER_CAPACITY 65) 1 (wf_new_default .INFO) rfl
      (by decide) (by simp)).2.2⟩

/-- C10: an empty write is a no-op: `write_data` with a zero-length slice
makes no sink invocation and leaves the whole writer state — resident length,
buffer contents, tag and priority — unchanged. -/
theorem empty_write_noop (w : Writer) : w.write_data [] = (w, []) := by
  have h : (w.copy_data []).2 = [] := by
    rw [copy_data_rest]
    simp
  rw [write_data_of_empty w [] h]
  have heq : (w.copy_data []).1 = w := by
    unfold Writer.copy_data copyNonoverlapping
    cases w with
    | mk tag prio buffer len =>
      simp
  rw [heq]

end AndroidyLog
